import Mathlib

/-!
# Verification of the TallyArbiter configuration auto-repair engine

Shallow embedding of `src/UI/src/app/_services/config-fix.service.ts`
(`ConfigFixService`): fix synthesis from JSON-schema validation errors,
patch application, and diff generation.

Modelling conventions:
* A runtime JavaScript value is a `JValue`; the constructor `jundef` is the
  JavaScript value `undefined`, so absent object fields and failed lookups are
  first-class (`lookupField` returns `jundef` for a missing key, exactly as
  `obj[key]` does).
* JavaScript numbers are modelled as integers (`Int`). The documents and
  schema defaults exercised by the service are integer-valued; fractional
  values, `NaN` and the infinities are outside the model, and the numeric
  string grammar accepted by `Number(...)` is restricted accordingly
  (optional sign and decimal digits, plus the empty/whitespace string as 0).
* Reading a property of `undefined` or `null` throws a `TypeError` in
  JavaScript; throwing computations live in `Except Unit`.
* Sequences carry only their JSON content: non-index expando properties of
  arrays (including `length`) are not representable, so a read of a
  non-numeric key on a sequence yields `jundef` and a write of one is
  dropped. No claim below exercises that corner.
* Strings are compared and measured by characters (the inputs at stake are
  ASCII, where this agrees with UTF-16 code units). String primitives
  (`split`, `trim`, `toLowerCase`, numeric conversion) are implemented here
  over the character list so that concrete runs reduce inside the kernel.
* The `id` field of a fix embeds `Date.now()` and `Math.random()`; those two
  sources are modelled by an oracle `idSuffix : Nat → String` indexed by the
  position of the error in the input list. No behaviour inspects `id`.
-/

/-- A JavaScript runtime value as observed by the service: the JSON kinds
plus `undefined`. -/
inductive JValue where
  | jundef
  | jnull
  | jbool (b : Bool)
  | jnum (n : Int)
  | jstr (s : String)
  | jarr (elems : List JValue)
  | jobj (fields : List (String × JValue))

open JValue

/-! ## Character-level string primitives -/

/-- The whitespace characters recognised by `trim` in the model. -/
def isWsC (c : Char) : Bool := c = ' ' || c = '\t' || c = '\n' || c = '\r'

/-- `String.prototype.split(sep)` on the character list (single-character
separator, empty segments preserved). -/
def splitChars (sep : Char) : List Char → List (List Char)
  | [] => [[]]
  | c :: cs =>
    let r := splitChars sep cs
    if c = sep then [] :: r
    else
      match r with
      | [] => [[c]]
      | seg :: rest => (c :: seg) :: rest

/-- `path.split('/').filter((p) => p)`. -/
def splitPath (s : String) : List String :=
  ((splitChars '/' s.data).map (fun cs => String.mk cs)).filter (fun p => p ≠ "")

/-- `/^\d+$/.test(s)` combined with `parseInt(s)`: every character a decimal
digit (and at least one), with its base-10 value. -/
def digitsToNat? (cs : List Char) : Option Nat :=
  if cs = [] then none
  else if cs.all (fun c => c.isDigit) then
    some (cs.foldl (fun a c => a * 10 + (c.toNat - 48)) 0)
  else none

/-- The array-index test and parse on a path segment. -/
def segIndex (s : String) : Option Nat := digitsToNat? s.data

/-- Numeric parse of a string, as in `Number("...")` restricted to the
integer grammar of the model: whitespace-only is 0, otherwise an optional
sign followed by decimal digits. -/
def parseNumChars (cs : List Char) : Option Int :=
  let t := ((cs.dropWhile isWsC).reverse.dropWhile isWsC).reverse
  match t with
  | [] => some 0
  | '-' :: rest => (digitsToNat? rest).map (fun n => -(n : Int))
  | '+' :: rest => (digitsToNat? rest).map (fun n => (n : Int))
  | _ => (digitsToNat? t).map (fun n => (n : Int))

/-- ASCII `toLowerCase`. -/
def lowerChar (c : Char) : Char :=
  if 'A' ≤ c ∧ c ≤ 'Z' then Char.ofNat (c.toNat + 32) else c

/-- `s.toLowerCase()`. -/
def strToLower (s : String) : String := String.mk (s.data.map lowerChar)

/-- Decimal digits of a natural number, most significant first (the first
argument is fuel, always sufficient at `n + 1`). -/
def natToCharsAux : Nat → Nat → List Char → List Char
  | 0, _, acc => acc
  | fuel + 1, n, acc =>
    let d := Char.ofNat (48 + n % 10)
    if n < 10 then d :: acc else natToCharsAux fuel (n / 10) (d :: acc)

/-- Decimal rendering of a natural number. -/
def natToStr (n : Nat) : String := String.mk (natToCharsAux (n + 1) n [])

/-- Decimal rendering of an integer, as `String(n)` renders an integral
JavaScript number. -/
def intToStr : Int → String
  | .ofNat n => natToStr n
  | .negSucc m => "-" ++ natToStr (m + 1)

/-! ## JavaScript value primitives -/

/-- JavaScript truthiness (`Boolean(v)`, and the test in `if (v)` / `v ? _ : _`). -/
def truthy : JValue → Bool
  | jundef => false
  | jnull => false
  | jbool b => b
  | jnum n => n ≠ 0
  | jstr s => s ≠ ""
  | jarr _ => true
  | jobj _ => true

/-- `obj[key]` on a plain object: the first binding of `key`, or `undefined`. -/
def lookupField : List (String × JValue) → String → JValue
  | [], _ => jundef
  | (k1, v1) :: fs, k => if k1 = k then v1 else lookupField fs k

/-- `obj[key] = v` on a plain object: overwrite in place, or append a new key. -/
def setField : List (String × JValue) → String → JValue → List (String × JValue)
  | [], k, v => [(k, v)]
  | (k1, v1) :: fs, k, v => if k1 = k then (k, v) :: fs else (k1, v1) :: setField fs k v

/-- `delete obj[key]`. -/
def removeField : List (String × JValue) → String → List (String × JValue)
  | [], _ => []
  | (k1, v1) :: fs, k => if k1 = k then fs else (k1, v1) :: removeField fs k

/-- Plain property read `v.key`: throws (`TypeError`) on `undefined`/`null`,
yields the field of an object, `undefined` on every other kind. -/
def getField : JValue → String → Except Unit JValue
  | jundef, _ => .error ()
  | jnull, _ => .error ()
  | jobj fs, k => .ok (lookupField fs k)
  | _, _ => .ok jundef

/-- Optional-chained property read `v?.key`: never throws. -/
def safeField : JValue → String → JValue
  | jobj fs, k => lookupField fs k
  | _, _ => jundef

/-- A defined value (anything but `undefined`), as tested by
`x !== undefined` / `x === undefined`. -/
def isDefined : JValue → Bool
  | jundef => false
  | _ => true

mutual

/-- `String(v)` / template-literal interpolation of `v`. -/
def jsToString : JValue → String
  | jundef => "undefined"
  | jnull => "null"
  | jbool b => if b then "true" else "false"
  | jnum n => intToStr n
  | jstr s => s
  | jarr xs => joinElems xs
  | jobj _ => "[object Object]"

/-- `Array.prototype.join(",")` as used by array-to-string coercion. -/
def joinElems : List JValue → String
  | [] => ""
  | [x] => elemToString x
  | x :: y :: xs => elemToString x ++ "," ++ joinElems (y :: xs)

/-- One element inside `join`: `null` and `undefined` render empty. -/
def elemToString : JValue → String
  | jundef => ""
  | jnull => ""
  | jbool b => if b then "true" else "false"
  | jnum n => intToStr n
  | jstr s => s
  | jarr xs => joinElems xs
  | jobj _ => "[object Object]"

end

/-- `Number(v)`: `none` is `NaN`. Arrays coerce through their joined string
form (`ToPrimitive`), objects are `NaN`. -/
def jsToNumber : JValue → Option Int
  | jundef => none
  | jnull => some 0
  | jbool b => some (if b then 1 else 0)
  | jnum n => some n
  | jstr s => parseNumChars s.data
  | jarr xs => parseNumChars (joinElems xs).data
  | jobj _ => none

/-- `a > b` with a number on the left: the right side coerces to a number,
and any comparison against `NaN` is false. -/
def jsGT (a : Int) (b : JValue) : Bool :=
  match jsToNumber b with
  | some m => a > m
  | none => false

/-- `a < b` with a number on the left. -/
def jsLT (a : Int) (b : JValue) : Bool :=
  match jsToNumber b with
  | some m => a < m
  | none => false

/-- `xs.slice(0, limit)`: the end coerces through `Number` (`NaN` to 0), a
negative end counts from the end, clamped to the array. -/
def jsSliceTo (xs : List JValue) (limit : JValue) : List JValue :=
  let e : Int := (jsToNumber limit).getD 0
  let len : Int := xs.length
  let stop : Int := if e < 0 then max (len + e) 0 else min e len
  xs.take stop.toNat

/-- `s.substring(0, limit)`: the end coerces through `Number` (`NaN` and
negatives to 0), clamped to the string. -/
def jsSubstringTo (s : String) (limit : JValue) : String :=
  let e : Int := (jsToNumber limit).getD 0
  String.mk (s.data.take e.toNat)

/-! ## The service: reading values at a path -/

/-- One step of the value-reading traversal (source lines 70-81 and 406-416):
inside a container descend by index (for a sequence and an all-digit segment,
out of range giving `undefined`) or by key; anywhere else the walk has failed
and stays at `undefined`. -/
def navStep : JValue → String → JValue
  | jarr xs, part =>
    match segIndex part with
    | some i => xs.getD i jundef
    | none => jundef
  | jobj fs, part => lookupField fs part
  | _, _ => jundef

/-- The current-value navigation at the head of `generateFixForError`
(source lines 68-82). -/
def navigate (config : JValue) (parts : List String) : JValue :=
  parts.foldl navStep config

/-- `getNestedValue` (source lines 403-419): the same traversal. -/
def getNestedValue (obj : JValue) (parts : List String) : JValue :=
  parts.foldl navStep obj

/-- Bracket read `v?.[key]` with an arbitrary key value: the key coerces to
a string; on a sequence a canonical numeric key indexes, anything else is
`undefined`. -/
def safeIndex (v : JValue) (key : JValue) : JValue :=
  let k := jsToString key
  match v with
  | jarr xs =>
    match segIndex k with
    | some i => if natToStr i = k then xs.getD i jundef else jundef
    | none => jundef
  | jobj fs => lookupField fs k
  | _ => jundef

/-! ## The service: fix synthesis -/

/-- `convertType` (source lines 222-245): coerce `value` to `expectedType`,
with `jundef` meaning the coercion failed. `typeof value === 'object'` holds
for both maps and sequences, which is why both pass through unchanged in the
`object` branch. -/
def convertType (value : JValue) (expectedType : JValue) : JValue :=
  match expectedType with
  | jstr "string" => jstr (jsToString value)
  | jstr "number" =>
    match jsToNumber value with
    | some n => jnum n
    | none => jundef
  | jstr "boolean" =>
    match value with
    | jstr s => jbool (strToLower s = "true")
    | _ => jbool (truthy value)
  | jstr "array" =>
    match value with
    | jarr _ => value
    | _ => jarr [value]
  | jstr "object" =>
    match value with
    | jobj _ => value
    | jarr _ => value
    | _ => jobj []
  | _ => jundef

/-- `getDefaultValue` (source lines 250-277). Only optional-chained accesses
occur, so it never throws (its callers always pass a non-null error record). -/
def getDefaultValue (e : JValue) (propertyName : String) : JValue :=
  match safeField (safeField e "schema") "default" with
  | jundef =>
    match safeField (safeField (safeField (safeField e "parentSchema") "properties") propertyName) "default" with
    | jundef =>
      let pt := safeField (safeField e "params") "type"
      let ty := if truthy pt then pt else safeField (safeField e "schema") "type"
      match ty with
      | jstr "string" => jstr ""
      | jstr "number" => jnum 0
      | jstr "boolean" => jbool false
      | jstr "array" => jarr []
      | jstr "object" => jobj []
      | _ => jnull
    | pd => pd
  | sd => sd

/-- The four operation tags of a fix suggestion. -/
inductive Operation where
  | add
  | remove
  | replace
  | set
deriving DecidableEq, Repr

/-- The `suggestion` record of a `ConfigFix`; an absent optional field is
`jundef`. -/
structure Suggestion where
  operation : Operation
  path : String
  value : JValue := JValue.jundef
  oldValue : JValue := JValue.jundef

/-- A produced fix (`ConfigFix` interface of the source). -/
structure ConfigFix where
  id : String
  error : JValue
  path : String
  description : String
  suggestion : Suggestion

/-- The `required` case of the keyword switch (source lines 85-96). -/
def fixRequired (e : JValue) (pathStr : String) : Except Unit (Option (Suggestion × String)) :=
  match getField e "params" with
  | .error u => .error u
  | .ok params =>
    match getField params "missingProperty" with
    | .error u => .error u
    | .ok missingProperty =>
      let mp := jsToString missingProperty
      let fullPath := if pathStr ≠ "" then pathStr ++ "/" ++ mp else "/" ++ mp
      .ok (some ({ operation := .add, path := fullPath, value := getDefaultValue e mp },
        "Missing required property \"" ++ mp ++ "\". Add with default value."))

/-- The `type` case (source lines 98-120). -/
def fixType (e : JValue) (pathStr : String) (pathParts : List String) (currentValue : JValue) :
    Except Unit (Option (Suggestion × String)) :=
  match getField e "params" with
  | .error u => .error u
  | .ok params =>
    match getField params "type" with
    | .error u => .error u
    | .ok expectedType =>
      match convertType currentValue expectedType with
      | jundef =>
        let defaultVal := getDefaultValue e (pathParts.getLast?.getD "")
        .ok (some ({ operation := .replace, path := pathStr, value := defaultVal, oldValue := currentValue },
          "Property has wrong type (expected " ++ jsToString expectedType ++ "). Set to default value."))
      | convertedValue =>
        .ok (some ({ operation := .replace, path := pathStr, value := convertedValue, oldValue := currentValue },
          "Property has wrong type (expected " ++ jsToString expectedType ++ "). Convert value."))

/-- The `additionalProperties` case (source lines 122-132). -/
def fixAddProps (e : JValue) (pathStr : String) (currentValue : JValue) :
    Except Unit (Option (Suggestion × String)) :=
  match getField e "params" with
  | .error u => .error u
  | .ok params =>
    match getField params "additionalProperty" with
    | .error u => .error u
    | .ok invalidProperty =>
      let ip := jsToString invalidProperty
      let removePath := if pathStr ≠ "" then pathStr ++ "/" ++ ip else "/" ++ ip
      .ok (some ({ operation := .remove, path := removePath, oldValue := safeIndex currentValue invalidProperty },
        "Invalid property \"" ++ ip ++ "\" is not allowed. Remove it."))

/-- The `minItems` case (source lines 134-137): the description template
reads `error.params.limit`, then no fix is produced. -/
def fixMinItemsCase (e : JValue) : Except Unit (Option (Suggestion × String)) :=
  match getField e "params" with
  | .error u => .error u
  | .ok params =>
    match getField params "limit" with
    | .error u => .error u
    | .ok _ => .ok none

/-- The `maxItems` case (source lines 139-150). -/
def fixMaxItemsCase (e : JValue) (pathStr : String) (currentValue : JValue) :
    Except Unit (Option (Suggestion × String)) :=
  match currentValue with
  | jarr xs =>
    match getField e "params" with
    | .error u => .error u
    | .ok params =>
      match getField params "limit" with
      | .error u => .error u
      | .ok limit =>
        if jsGT (Int.ofNat xs.length) limit then
          .ok (some ({ operation := .replace, path := pathStr, value := jarr (jsSliceTo xs limit), oldValue := jarr xs },
            "Array has too many items (max " ++ jsToString limit ++ "). Remove excess items."))
        else .ok none
  | _ => .ok none

/-- The `minLength` case (source lines 152-155): like `minItems`, the
template reads `error.params.limit` and no fix is produced. -/
def fixMinLengthCase (e : JValue) : Except Unit (Option (Suggestion × String)) :=
  match getField e "params" with
  | .error u => .error u
  | .ok params =>
    match getField params "limit" with
    | .error u => .error u
    | .ok _ => .ok none

/-- The `maxLength` case (source lines 157-168). -/
def fixMaxLengthCase (e : JValue) (pathStr : String) (currentValue : JValue) :
    Except Unit (Option (Suggestion × String)) :=
  match currentValue with
  | jstr s =>
    match getField e "params" with
    | .error u => .error u
    | .ok params =>
      match getField params "limit" with
      | .error u => .error u
      | .ok limit =>
        if jsGT (Int.ofNat s.data.length) limit then
          .ok (some ({ operation := .replace, path := pathStr, value := jstr (jsSubstringTo s limit), oldValue := jstr s },
            "String is too long (max " ++ jsToString limit ++ " characters). Truncate."))
        else .ok none
  | _ => .ok none

/-- The `minimum` case (source lines 170-181). -/
def fixMinimumCase (e : JValue) (pathStr : String) (currentValue : JValue) :
    Except Unit (Option (Suggestion × String)) :=
  match currentValue with
  | jnum n =>
    match getField e "params" with
    | .error u => .error u
    | .ok params =>
      match getField params "limit" with
      | .error u => .error u
      | .ok limit =>
        if jsLT n limit then
          .ok (some ({ operation := .replace, path := pathStr, value := limit, oldValue := jnum n },
            "Value is too small (minimum " ++ jsToString limit ++ "). Set to minimum."))
        else .ok none
  | _ => .ok none

/-- The `maximum` case (source lines 183-194). -/
def fixMaximumCase (e : JValue) (pathStr : String) (currentValue : JValue) :
    Except Unit (Option (Suggestion × String)) :=
  match currentValue with
  | jnum n =>
    match getField e "params" with
    | .error u => .error u
    | .ok params =>
      match getField params "limit" with
      | .error u => .error u
      | .ok limit =>
        if jsGT n limit then
          .ok (some ({ operation := .replace, path := pathStr, value := limit, oldValue := jnum n },
            "Value is too large (maximum " ++ jsToString limit ++ "). Set to maximum."))
        else .ok none
  | _ => .ok none

/-- The `enum` case (source lines 196-199): the description template calls
`error.params.allowedValues.join`, which throws unless it is a sequence;
then no fix is produced. -/
def fixEnumCase (e : JValue) : Except Unit (Option (Suggestion × String)) :=
  match getField e "params" with
  | .error u => .error u
  | .ok params =>
    match getField params "allowedValues" with
    | .error u => .error u
    | .ok (jarr _) => .ok none
    | .ok _ => .error ()

/-- The default case (source lines 201-203): the description reads
`error.message`, then no fix is produced. -/
def fixOtherCase (e : JValue) : Except Unit (Option (Suggestion × String)) :=
  match getField e "message" with
  | .error u => .error u
  | .ok _ => .ok none

/-- The keyword switch of `generateFixForError` (source lines 84-204):
either a thrown `TypeError`, no suggestion, or a suggestion plus its
description. The switch compares `error.keyword` against string literals
with strict equality, so only string keywords match a case. -/
def fixSwitch (e kw : JValue) (pathStr : String) (pathParts : List String)
    (currentValue : JValue) : Except Unit (Option (Suggestion × String)) :=
  match kw with
  | jstr k =>
    if k = "required" then fixRequired e pathStr
    else if k = "type" then fixType e pathStr pathParts currentValue
    else if k = "additionalProperties" then fixAddProps e pathStr currentValue
    else if k = "minItems" then fixMinItemsCase e
    else if k = "maxItems" then fixMaxItemsCase e pathStr currentValue
    else if k = "minLength" then fixMinLengthCase e
    else if k = "maxLength" then fixMaxLengthCase e pathStr currentValue
    else if k = "minimum" then fixMinimumCase e pathStr currentValue
    else if k = "maximum" then fixMaximumCase e pathStr currentValue
    else if k = "enum" then fixEnumCase e
    else fixOtherCase e
  | _ => fixOtherCase e

/-- `generateFixForError` (source lines 62-217). `suffix` stands for the
`Date.now()`/`Math.random()` tail of the id. A non-string path value reaches
`path.split` and throws. -/
def generateFixForError (suffix : String) (e : JValue) (config : JValue) (path : JValue) :
    Except Unit (Option ConfigFix) :=
  match getField e "keyword" with
  | .error u => .error u
  | .ok kw =>
    match path with
    | jstr pathStr =>
      let pathParts := splitPath pathStr
      let currentValue := navigate config pathParts
      match fixSwitch e kw pathStr pathParts currentValue with
      | .error u => .error u
      | .ok none => .ok none
      | .ok (some (sugg, desc)) =>
        .ok (some { id := jsToString kw ++ "-" ++ pathStr ++ "-" ++ suffix, error := e, path := pathStr, description := desc, suggestion := sugg })
    | _ => .error ()

/-- `getErrorPath` (source lines 49-57): first truthy of `instancePath`,
`dataPath`, else the empty string. -/
def getErrorPath (e : JValue) : Except Unit JValue :=
  match getField e "instancePath" with
  | .error u => .error u
  | .ok ip =>
    if truthy ip then .ok ip
    else
      match getField e "dataPath" with
      | .error u => .error u
      | .ok dp => if truthy dp then .ok dp else .ok (jstr "")

/-- Membership in the `processedPaths` set. -/
def memStr : List String → String → Bool
  | [], _ => false
  | p :: ps, k => p = k || memStr ps k

/-- The loop of `generateFixes` (source lines 27-41): `i` is the position
feeding the id oracle, `fixes` and `processedPaths` the accumulated state. -/
def generateFixesAux (idSuffix : Nat → String) (config : JValue) :
    List JValue → Nat → List ConfigFix → List String → Except Unit (List ConfigFix)
  | [], _, fixes, _ => .ok fixes
  | e :: rest, i, fixes, processedPaths =>
    match getErrorPath e with
    | .error u => .error u
    | .ok path =>
      match getField e "keyword" with
      | .error u => .error u
      | .ok kw =>
        let pathKey := jsToString kw ++ ":" ++ jsToString path
        if memStr processedPaths pathKey then
          generateFixesAux idSuffix config rest (i + 1) fixes processedPaths
        else
          match generateFixForError (idSuffix i) e config path with
          | .error u => .error u
          | .ok none => generateFixesAux idSuffix config rest (i + 1) fixes processedPaths
          | .ok (some fix) =>
            generateFixesAux idSuffix config rest (i + 1) (fixes ++ [fix]) (pathKey :: processedPaths)

/-- `generateFixes` (source lines 23-44). -/
def generateFixes (idSuffix : Nat → String) (errors : List JValue) (config : JValue) :
    Except Unit (List ConfigFix) :=
  generateFixesAux idSuffix config errors 0 [] []

/-- A constant id oracle for concrete runs. -/
def noIds : Nat → String := fun _ => ""

/-! ## The service: applying a fix -/

mutual

/-- `JSON.parse(JSON.stringify(v))` as a tree transformation: `undefined`
inside a sequence becomes `null`, an `undefined`-valued member of a map is
dropped. (A top-level `undefined` has no JSON image; it is returned as is
and every theorem below restricts to JSON documents.) -/
def jsonClone : JValue → JValue
  | jundef => jundef
  | jnull => jnull
  | jbool b => jbool b
  | jnum n => jnum n
  | jstr s => jstr s
  | jarr xs => jarr (cloneList xs)
  | jobj fs => jobj (cloneFields fs)

/-- Clone of sequence elements (`undefined` serialises as `null`). -/
def cloneList : List JValue → List JValue
  | [] => []
  | jundef :: xs => jnull :: cloneList xs
  | x :: xs => jsonClone x :: cloneList xs

/-- Clone of map members (`undefined`-valued members are dropped). -/
def cloneFields : List (String × JValue) → List (String × JValue)
  | [] => []
  | (_, jundef) :: fs => cloneFields fs
  | (k, v) :: fs => (k, jsonClone v) :: cloneFields fs

end

mutual

/-- A JSON document: no `undefined` anywhere in the tree. -/
def isJsonValue : JValue → Bool
  | jundef => false
  | jnull => true
  | jbool _ => true
  | jnum _ => true
  | jstr _ => true
  | jarr xs => isJsonList xs
  | jobj fs => isJsonFields fs

/-- All elements of a sequence are JSON documents. -/
def isJsonList : List JValue → Bool
  | [] => true
  | x :: xs => isJsonValue x && isJsonList xs

/-- All member values of a map are JSON documents. -/
def isJsonFields : List (String × JValue) → Bool
  | [] => true
  | (_, v) :: fs => isJsonValue v && isJsonFields fs

end

/-- The final assignment of `setProperty` (source lines 324-335) on the
resolved parent: for a sequence and a numeric segment, overwrite in range,
append exactly at the length, otherwise do nothing; for a map, set the key;
for a non-container, do nothing. -/
def finalAssign (parent : JValue) (last : String) (v : JValue) : JValue :=
  match parent with
  | jarr xs =>
    match segIndex last with
    | some i =>
      if i < xs.length then jarr (xs.set i v)
      else if i = xs.length then jarr (xs ++ [v])
      else parent
    | none => parent
  | jobj fs => jobj (setField fs last v)
  | _ => parent

/-- `setProperty` (source lines 317-336) fused with the create-missing
resolution of `getNestedObject` (source lines 341-371), as a pure tree
update. Resolution walks all but the last segment: in a sequence an
in-range index descends and any other segment fails; in a map an existing
key descends and a missing key is created as a sequence exactly when the
next segment of the *parent* path is numeric (the final segment is not
looked at, matching the `parentPath` truncation in the source), else as a
map. A failure deeper in the walk leaves the containers already created in
place, exactly as the imperative code does. -/
def setProp : JValue → List String → JValue → JValue
  | cur, [], _ => cur
  | cur, part :: rest, v =>
    if rest = [] then finalAssign cur part v
    else
      match cur with
      | jarr xs =>
        match segIndex part with
        | some i =>
          if h : i < xs.length then jarr (xs.set i (setProp xs[i] rest v))
          else cur
        | none => cur
      | jobj fs =>
        if isDefined (lookupField fs part) then
          jobj (setField fs part (setProp (lookupField fs part) rest v))
        else
          let newChild : JValue :=
            if 2 ≤ rest.length ∧ (segIndex (rest.headD "")).isSome then jarr [] else jobj []
          jobj (setField fs part (setProp newChild rest v))
      | _ => cur

/-- `removeProperty` (source lines 298-312) fused with the plain (no-create)
resolution of `getNestedObject`: `splice` for an in-range numeric segment of
a sequence, `delete` for a map key, no-op everywhere else. -/
def removeProp : JValue → List String → JValue
  | cur, [] => cur
  | cur, part :: rest =>
    if rest = [] then
      match cur with
      | jarr xs =>
        match segIndex part with
        | some i => if i < xs.length then jarr (xs.eraseIdx i) else cur
        | none => cur
      | jobj fs => jobj (removeField fs part)
      | _ => cur
    else
      match cur with
      | jarr xs =>
        match segIndex part with
        | some i =>
          if h : i < xs.length then jarr (xs.set i (removeProp xs[i] rest))
          else cur
        | none => cur
      | jobj fs =>
        if isDefined (lookupField fs part) then
          jobj (setField fs part (removeProp (lookupField fs part) rest))
        else cur
      | _ => cur

/-- `applyFix` (source lines 282-293): deep-copy the document, then route
`remove` to `removeProperty` and `add`/`replace`/`set` to `setProperty`. -/
def applyFix (config : JValue) (fix : ConfigFix) : JValue :=
  let configCopy := jsonClone config
  let pathParts := splitPath fix.suggestion.path
  match fix.suggestion.operation with
  | .remove => removeProp configCopy pathParts
  | _ => setProp configCopy pathParts fix.suggestion.value

/-- The call `applyFix(config, fix)` as a state transformer on the caller's
document slot: the body only ever mutates the fresh deep copy (`configCopy`),
never the argument, so the translated call returns the caller's document
unchanged alongside the edited copy. -/
def applyFixCall (config : JValue) (fix : ConfigFix) : JValue × JValue :=
  (config, applyFix config fix)

/-! ## The service: diff rendering -/

/-- JSON string escaping for the renderer (the characters the inputs at
stake may contain). -/
def escChar (c : Char) : String :=
  if c = '"' then "\\\""
  else if c = '\\' then "\\\\"
  else if c = '\n' then "\\n"
  else if c = '\t' then "\\t"
  else if c = '\r' then "\\r"
  else String.mk [c]

/-- Escape a whole string. -/
def escapeJson (s : String) : String := s.data.foldl (fun acc c => acc ++ escChar c) ""

/-- An indentation of `n` spaces. -/
def spaces (n : Nat) : String := String.mk (List.replicate n ' ')

mutual

/-- `JSON.stringify(v, null, 2)` at indentation level `ind`: JSON
pretty-printing with two-space nesting. A nested `undefined` renders as
`null` in a sequence and is dropped from a map; the top-level `undefined`
case is unreachable from `generateDiff`, which tests for it first. -/
def stringifyAt (ind : Nat) : JValue → String
  | jundef => "null"
  | jnull => "null"
  | jbool b => if b then "true" else "false"
  | jnum n => intToStr n
  | jstr s => "\"" ++ escapeJson s ++ "\""
  | jarr [] => "[]"
  | jarr (x :: xs) =>
    "[\n" ++ String.intercalate ",\n" (arrItemStrs (ind + 2) (x :: xs)) ++ "\n" ++ spaces ind ++ "]"
  | jobj fs =>
    match memberStrs (ind + 2) fs with
    | [] => "\x7b\x7d"
    | m :: ms => "\x7b\n" ++ String.intercalate ",\n" (m :: ms) ++ "\n" ++ spaces ind ++ "\x7d"

/-- The rendered items of a sequence, one per element. -/
def arrItemStrs (ind : Nat) : List JValue → List String
  | [] => []
  | x :: xs => (spaces ind ++ stringifyAt ind x) :: arrItemStrs ind xs

/-- The rendered members of a map, skipping `undefined` values. -/
def memberStrs (ind : Nat) : List (String × JValue) → List String
  | [] => []
  | (_, jundef) :: fs => memberStrs ind fs
  | (k, v) :: fs =>
    (spaces ind ++ "\"" ++ escapeJson k ++ "\": " ++ stringifyAt ind v) :: memberStrs ind fs

end

/-- `JSON.stringify(v, null, 2)`. -/
def stringifyPretty (v : JValue) : String := stringifyAt 0 v

/-- The record returned by `generateDiff`. -/
structure DiffResult where
  before : String
  after : String
  path : String
deriving DecidableEq, Repr

/-- `generateDiff` (source lines 376-398): snapshot the document, apply the
fix, read the value at the fix's path on both sides, substitute `null` for a
previously-absent `add` target and the recorded `oldValue` for a `remove`,
and print, with the literal token `(undefined)` for a still-absent value. -/
def generateDiff (fix : ConfigFix) (config : JValue) : DiffResult :=
  let beforeConfig := jsonClone config
  let afterConfig := applyFix beforeConfig fix
  let pathParts := splitPath fix.suggestion.path
  let beforeValue0 := getNestedValue beforeConfig pathParts
  let afterValue := getNestedValue afterConfig pathParts
  let beforeValue :=
    match beforeValue0 with
    | jundef =>
      if fix.suggestion.operation = .add then jnull
      else if fix.suggestion.operation = .remove then fix.suggestion.oldValue
      else jundef
    | bv => bv
  { before :=
      match beforeValue with
      | jundef => "(undefined)"
      | bv => stringifyPretty bv
    after :=
      match afterValue with
      | jundef => "(undefined)"
      | av => stringifyPretty av
    path := fix.suggestion.path }

/-! ## Specification-side definitions (worded from the spec, for refinement
claims) and shared notions -/

/-- A sequence. -/
def isSeq : JValue → Bool
  | jarr _ => true
  | _ => false

/-- A map. -/
def isMap : JValue → Bool
  | jobj _ => true
  | _ => false

/-- A container (sequence or map). -/
def isContainer : JValue → Bool
  | jarr _ => true
  | jobj _ => true
  | _ => false

/-- The coercion table exactly as the specification words it: for `object`,
"value unchanged if already a non-null map, else an empty map". -/
def convertTypeSpec (v t : JValue) : JValue :=
  match t with
  | jstr "string" => jstr (jsToString v)
  | jstr "number" =>
    match jsToNumber v with
    | some n => jnum n
    | none => jundef
  | jstr "boolean" =>
    match v with
    | jstr s => jbool (strToLower s = "true")
    | _ => jbool (truthy v)
  | jstr "array" => if isSeq v then v else jarr [v]
  | jstr "object" => if isMap v then v else jobj []
  | _ => jundef

/-- The coercion table amended at its `object` row: the value also passes
through unchanged when it is a sequence (since `typeof [] === 'object'`). -/
def convertTypeAmended (v t : JValue) : JValue :=
  match t with
  | jstr "string" => jstr (jsToString v)
  | jstr "number" =>
    match jsToNumber v with
    | some n => jnum n
    | none => jundef
  | jstr "boolean" =>
    match v with
    | jstr s => jbool (strToLower s = "true")
    | _ => jbool (truthy v)
  | jstr "array" => if isSeq v then v else jarr [v]
  | jstr "object" => if isSeq v || isMap v then v else jobj []
  | _ => jundef

/-- The type-keyed built-in defaults of the default-resolution order. -/
def builtinDefault : JValue → JValue
  | jstr "string" => jstr ""
  | jstr "number" => jnum 0
  | jstr "boolean" => jbool false
  | jstr "array" => jarr []
  | jstr "object" => jobj []
  | _ => jnull

/-- The type the built-in default is keyed on: the error's `params.type` if
truthy, else the violated schema fragment's `type`. -/
def defaultTypeOf (e : JValue) : JValue :=
  let pt := safeField (safeField e "params") "type"
  if truthy pt then pt else safeField (safeField e "schema") "type"

/-- The default-value resolution order as the specification words it:
(1) the violated schema fragment's own `default`, (2) the enclosing schema's
declared default for the property name, (3) the type-keyed built-in default,
(4) `null` (folded into `builtinDefault`). -/
def defaultValueSpecModel (e : JValue) (propertyName : String) : JValue :=
  let own := safeField (safeField e "schema") "default"
  let declared := safeField (safeField (safeField (safeField e "parentSchema") "properties") propertyName) "default"
  if isDefined own then own
  else if isDefined declared then declared
  else builtinDefault (defaultTypeOf e)

/-- The diff contract as the specification words it: `before` is the
pre-edit value at the fix's path (the placeholder `null` when the operation
is `add` and nothing existed, the recorded `oldValue` when it is `remove`),
`after` the post-edit value at the same path, both pretty-printed, with the
literal token `(undefined)` for a value still absent after substitution. -/
def diffSpec (fix : ConfigFix) (config : JValue) : DiffResult :=
  let parts := splitPath fix.suggestion.path
  let pre := getNestedValue config parts
  let post := getNestedValue (applyFix config fix) parts
  let preSub :=
    match pre with
    | jundef =>
      if fix.suggestion.operation = .add then jnull
      else if fix.suggestion.operation = .remove then fix.suggestion.oldValue
      else jundef
    | bv => bv
  { before :=
      match preSub with
      | jundef => "(undefined)"
      | bv => stringifyPretty bv
    after :=
      match post with
      | jundef => "(undefined)"
      | av => stringifyPretty av
    path := fix.suggestion.path }

/-- The dedup key of an error as `generateFixes` builds it. -/
def pathKeyOf (kw p : JValue) : String := jsToString kw ++ ":" ++ jsToString p

/-- The dedup key recoverable from a produced fix (its source error's
keyword and its resolved path). -/
def fixKey (f : ConfigFix) : String := jsToString (safeField f.error "keyword") ++ ":" ++ f.path

/-! ## Concrete fixtures used by the claim theorems and witnesses -/

/-- C1 fixture document. -/
def doc1 : JValue := jobj [("a", jarr [jnum 1, jnum 2])]

/-- C1 fixture fix (a `remove` at `/a/0`). -/
def fixRem1 : ConfigFix := { id := "r", error := jnull, path := "/a/0", description := "", suggestion := { operation := .remove, path := "/a/0", oldValue := jnum 1 } }

/-- C2/C10-style fixtures: two `minimum` errors at the same path and one
`required` error at another. -/
def errMin2a : JValue := jobj [("keyword", jstr "minimum"), ("instancePath", jstr "/x"), ("params", jobj [("limit", jnum 5)])]

/-- Second `minimum` error at the same path with a different limit. -/
def errMin2b : JValue := jobj [("keyword", jstr "minimum"), ("instancePath", jstr "/x"), ("params", jobj [("limit", jnum 7)])]

/-- A `required` error at another path. -/
def errReq2c : JValue := jobj [("keyword", jstr "required"), ("instancePath", jstr "/y"), ("params", jobj [("missingProperty", jstr "z")])]

/-- C2 fixture document. -/
def doc2 : JValue := jobj [("x", jnum 1), ("y", jobj [])]

/-- The fix the first `minimum` error produces on `doc2`. -/
def fixMin2a : ConfigFix := { id := "minimum-/x-", error := errMin2a, path := "/x", description := "Value is too small (minimum 5). Set to minimum.", suggestion := { operation := .replace, path := "/x", value := jnum 5, oldValue := jnum 1 } }

/-- The fix the `required` error produces on `doc2`. -/
def fixReq2c : ConfigFix := { id := "required-/y-", error := errReq2c, path := "/y", description := "Missing required property \"z\". Add with default value.", suggestion := { operation := .add, path := "/y/z", value := jnull } }

/-- C3 fixture: an `enum` error whose `params.allowedValues` is present but
not a sequence (`.join` throws). -/
def errEnum3 : JValue := jobj [("keyword", jstr "enum"), ("instancePath", jstr "/p"), ("params", jobj [("allowedValues", jstr "oops")])]

/-- C3 fixture: an `enum` error whose `params` lacks `allowedValues`
entirely (`.join` on `undefined` throws). -/
def errEnum3b : JValue := jobj [("keyword", jstr "enum"), ("instancePath", jstr "/p"), ("params", jobj [])]

/-- C3 fixture: a well-formed `required` error. -/
def errReq3 : JValue := jobj [("keyword", jstr "required"), ("instancePath", jstr ""), ("params", jobj [("missingProperty", jstr "w")])]

/-- The fix `errReq3` produces alone on the empty document. -/
def fixReq3 : ConfigFix := { id := "required--", error := errReq3, path := "", description := "Missing required property \"w\". Add with default value.", suggestion := { operation := .add, path := "/w", value := jnull } }

/-- C4 fixture document (the spec's array-append example). -/
def doc4 : JValue := jobj [("xs", jarr [jnum 1, jnum 2])]

/-- C4 fixture: `{operation:"set", path:"/xs/2", value:3}`. -/
def fixSet4 : ConfigFix := { id := "s", error := jnull, path := "/xs/2", description := "", suggestion := { operation := .set, path := "/xs/2", value := jnum 3 } }

/-- C5 fixture: a `type` error expecting a number. -/
def errType5 : JValue := jobj [("keyword", jstr "type"), ("instancePath", jstr "/n"), ("params", jobj [("type", jstr "number")])]

/-- C5 fixture document: the value at `/n` is the numeric string "42". -/
def doc5 : JValue := jobj [("n", jstr "42")]

/-- C7 fixture: the spec's round-trip `required` error. -/
def errReq7 : JValue := jobj [("keyword", jstr "required"), ("instancePath", jstr "/a"), ("params", jobj [("missingProperty", jstr "b")])]

/-- C7 fixture document `{a:{}}`. -/
def doc7 : JValue := jobj [("a", jobj [])]

/-- The fix `errReq7` produces on `doc7`. -/
def fixReq7 : ConfigFix := { id := "required-/a-", error := errReq7, path := "/a", description := "Missing required property \"b\". Add with default value.", suggestion := { operation := .add, path := "/a/b", value := jnull } }

/-- C8 fixture: a `minItems` error with no `params` at all. -/
def errMinItems8 : JValue := jobj [("keyword", jstr "minItems"), ("instancePath", jstr "/q")]

/-- C8 witness fixture: a well-formed `minItems` error. -/
def errMinItems8b : JValue := jobj [("keyword", jstr "minItems"), ("instancePath", jstr "/q"), ("params", jobj [("limit", jnum 2)])]

/-- C9 fixture document. -/
def doc9 : JValue := jobj [("x", jnum 3)]

/-- C9 fixture fix (a `replace` at `/x`). -/
def fixRep9 : ConfigFix := { id := "d", error := jnull, path := "/x", description := "", suggestion := { operation := .replace, path := "/x", value := jnum 9, oldValue := jnum 3 } }

/-- C10 fixtures: two `maximum` errors at the same path; the first is below
its limit and produces no fix, the second produces one. -/
def errMax10a : JValue := jobj [("keyword", jstr "maximum"), ("instancePath", jstr "/x"), ("params", jobj [("limit", jnum 5)])]

/-- The second `maximum` error, sharing the dedup key of the first. -/
def errMax10b : JValue := jobj [("keyword", jstr "maximum"), ("instancePath", jstr "/x"), ("params", jobj [("limit", jnum 1)])]

/-- C10 fixture document. -/
def doc10 : JValue := jobj [("x", jnum 3)]

/-- The fix the second `maximum` error produces on `doc10`. -/
def fixMax10b : ConfigFix := { id := "maximum-/x-", error := errMax10b, path := "/x", description := "Value is too large (maximum 1). Set to maximum.", suggestion := { operation := .replace, path := "/x", value := jnum 1, oldValue := jnum 3 } }

/-! ## Supporting lemmas -/

/-- Setting an index to the element already there changes nothing. -/
theorem listSet_self : ∀ (xs : List JValue) (i : Nat) (h : i < xs.length), xs.set i xs[i] = xs
  | _ :: _, 0, _ => rfl
  | x :: xs, i + 1, h => by
    simpa [List.set] using listSet_self xs i (Nat.lt_of_succ_lt_succ h)

/-- Looking up a key just set yields the value set. -/
theorem lookupField_setField : ∀ (fs : List (String × JValue)) (k : String) (v : JValue),
    lookupField (setField fs k v) k = v
  | [], k, v => by simp [setField, lookupField]
  | (k1, v1) :: fs, k, v => by
    by_cases h : k1 = k
    · simp [setField, lookupField, h]
    · simp [setField, lookupField, h, lookupField_setField fs k v]

/-- Setting a key to the value it already holds (a defined one) changes
nothing. -/
theorem setField_self : ∀ (fs : List (String × JValue)) (k : String) (v : JValue),
    lookupField fs k = v → v ≠ jundef → setField fs k v = fs
  | [], k, v, h, hv => by simp [lookupField] at h; exact absurd h.symm hv
  | (k1, v1) :: fs, k, v, h, hv => by
    by_cases hk : k1 = k
    · simp [lookupField, hk] at h
      simp [setField, hk, h]
    · simp [lookupField, hk] at h
      simp [setField, hk, setField_self fs k v h hv]

/-- The reading walk never recovers from `undefined`. -/
theorem getNestedValue_undef : ∀ (l : List String), getNestedValue jundef l = jundef
  | [] => rfl
  | _ :: l => getNestedValue_undef l

/-- The reading walk on a cons path. -/
theorem getNestedValue_cons (v : JValue) (p : String) (l : List String) :
    getNestedValue v (p :: l) = getNestedValue (navStep v p) l := rfl

mutual

/-- A JSON document is a fixed point of the serialisation round-trip. -/
theorem jsonClone_self : ∀ (v : JValue), isJsonValue v = true → jsonClone v = v
  | jnull, _ => rfl
  | jbool _, _ => rfl
  | jnum _, _ => rfl
  | jstr _, _ => rfl
  | jundef, h => by simp [isJsonValue] at h
  | jarr xs, h => by
    have hl : isJsonList xs = true := by simpa [isJsonValue] using h
    show jarr (cloneList xs) = jarr xs
    rw [cloneList_self xs hl]
  | jobj fs, h => by
    have hf : isJsonFields fs = true := by simpa [isJsonValue] using h
    show jobj (cloneFields fs) = jobj fs
    rw [cloneFields_self fs hf]

/-- Element-wise version of `jsonClone_self`. -/
theorem cloneList_self : ∀ (xs : List JValue), isJsonList xs = true → cloneList xs = xs
  | [], _ => rfl
  | x :: xs, h => by
    have h1 : isJsonValue x = true := by
      have hh := h; simp [isJsonList, Bool.and_eq_true] at hh; exact hh.1
    have h2 : isJsonList xs = true := by
      have hh := h; simp [isJsonList, Bool.and_eq_true] at hh; exact hh.2
    cases x with
    | jundef => simp [isJsonValue] at h1
    | jnull => show jsonClone jnull :: cloneList xs = jnull :: xs; rw [cloneList_self xs h2]; rfl
    | jbool b => show jsonClone (jbool b) :: cloneList xs = jbool b :: xs; rw [cloneList_self xs h2]; rfl
    | jnum n => show jsonClone (jnum n) :: cloneList xs = jnum n :: xs; rw [cloneList_self xs h2]; rfl
    | jstr s => show jsonClone (jstr s) :: cloneList xs = jstr s :: xs; rw [cloneList_self xs h2]; rfl
    | jarr es =>
      show jsonClone (jarr es) :: cloneList xs = jarr es :: xs
      rw [jsonClone_self (jarr es) h1, cloneList_self xs h2]
    | jobj ms =>
      show jsonClone (jobj ms) :: cloneList xs = jobj ms :: xs
      rw [jsonClone_self (jobj ms) h1, cloneList_self xs h2]

/-- Member-wise version of `jsonClone_self`. -/
theorem cloneFields_self : ∀ (fs : List (String × JValue)), isJsonFields fs = true → cloneFields fs = fs
  | [], _ => rfl
  | (k, v) :: fs, h => by
    have h1 : isJsonValue v = true := by
      have hh := h; simp [isJsonFields, Bool.and_eq_true] at hh; exact hh.1
    have h2 : isJsonFields fs = true := by
      have hh := h; simp [isJsonFields, Bool.and_eq_true] at hh; exact hh.2
    cases v with
    | jundef => simp [isJsonValue] at h1
    | jnull => show (k, jsonClone jnull) :: cloneFields fs = (k, jnull) :: fs; rw [cloneFields_self fs h2]; rfl
    | jbool b => show (k, jsonClone (jbool b)) :: cloneFields fs = (k, jbool b) :: fs; rw [cloneFields_self fs h2]; rfl
    | jnum n => show (k, jsonClone (jnum n)) :: cloneFields fs = (k, jnum n) :: fs; rw [cloneFields_self fs h2]; rfl
    | jstr s => show (k, jsonClone (jstr s)) :: cloneFields fs = (k, jstr s) :: fs; rw [cloneFields_self fs h2]; rfl
    | jarr es =>
      show (k, jsonClone (jarr es)) :: cloneFields fs = (k, jarr es) :: fs
      rw [jsonClone_self (jarr es) h1, cloneFields_self fs h2]
    | jobj ms =>
      show (k, jsonClone (jobj ms)) :: cloneFields fs = (k, jobj ms) :: fs
      rw [jsonClone_self (jobj ms) h1, cloneFields_self fs h2]

end

/-! ## Claim theorems -/

/-- C1: `applyFix` never mutates the caller's document. As a state
transformer the call returns the document slot unchanged (deep equality is
plain equality of the modelled trees), and the edit is computed on the deep
copy of the document, so it is visible only in the returned value. -/
theorem applyFix_never_mutates_document (D : JValue) (F : ConfigFix)
    (h : isJsonValue D = true) :
    (applyFixCall D F).1 = D ∧
    (applyFixCall D F).2 =
      (match F.suggestion.operation with
       | .remove => removeProp D (splitPath F.suggestion.path)
       | _ => setProp D (splitPath F.suggestion.path) F.suggestion.value) := by
  refine ⟨rfl, ?_⟩
  show applyFix D F = _
  unfold applyFix
  rw [jsonClone_self D h]

/-- Witness for C1 at a concrete document and fix. -/
theorem applyFix_never_mutates_document_witness :
    (applyFixCall doc1 fixRem1).1 = doc1 :=
  (applyFix_never_mutates_document doc1 fixRem1 rfl).1

/-- C6 counterexample: on a sequence input with expected type `object` the
code returns the sequence unchanged (`typeof [] === 'object'`), while the
claim's table demands an empty map. -/
theorem convertType_object_branch_counterexample :
    convertType (jarr []) (jstr "object") = jarr [] ∧
    convertTypeSpec (jarr []) (jstr "object") = jobj [] ∧
    convertType (jarr []) (jstr "object") ≠ convertTypeSpec (jarr []) (jstr "object") :=
  ⟨rfl, rfl, fun h => JValue.noConfusion h⟩

/-- C6 amended: the coercion table holds once its `object` row also passes
sequences through unchanged; every other row is exactly as claimed. -/
theorem convertType_matches_amended_table :
    ∀ (v t : JValue), convertType v t = convertTypeAmended v t := by
  intro v t
  cases t with
  | jstr s => cases v <;> rfl
  | jundef => rfl
  | jnull => rfl
  | jbool b => rfl
  | jnum n => rfl
  | jarr xs => rfl
  | jobj fs => rfl

/-- C7: the default-value resolution order matches the claim (own schema
fragment default, then the enclosing schema's declared default for the
property name, then the type-keyed built-in default, then `null`), and the
spec's round-trip holds: the `required` error on `{a:{}}` with no schema
hints yields an `add` of `null` at `/a/b`, and applying it gives
`{a:{b:null}}`. -/
theorem required_default_resolution_and_roundtrip :
    (∀ (e : JValue) (p : String), getDefaultValue e p = defaultValueSpecModel e p) ∧
    generateFixes noIds [errReq7] doc7 = .ok [fixReq7] ∧
    applyFix doc7 fixReq7 = jobj [("a", jobj [("b", jnull)])] := by
  refine ⟨?_, rfl, rfl⟩
  intro e p
  unfold getDefaultValue defaultValueSpecModel
  cases hs : safeField (safeField e "schema") "default" <;>
    cases hp : safeField (safeField (safeField (safeField e "parentSchema") "properties") p) "default" <;>
      simp [isDefined, builtinDefault, defaultTypeOf]

/-- C9: `generateDiff` computes exactly the claimed diff: `before` is the
pre-edit value at the fix's path (with the `null` placeholder for an `add`
on a previously-absent path, and the recorded `oldValue` for a `remove`),
`after` the post-edit value at the same path, both pretty-printed, with the
literal token `(undefined)` for values still absent after substitution. -/
theorem generateDiff_matches_spec (F : ConfigFix) (D : JValue)
    (h : isJsonValue D = true) :
    generateDiff F D = diffSpec F D := by
  simp only [generateDiff, diffSpec, jsonClone_self D h]

/-- Witness for C9 at a concrete document and fix. -/
theorem generateDiff_matches_spec_witness :
    generateDiff fixRep9 doc9 = diffSpec fixRep9 doc9 :=
  generateDiff_matches_spec fixRep9 doc9 rfl

/-- An undefined value is exactly the one `isDefined` rejects. -/
theorem isDefined_eq_false : ∀ (x : JValue), isDefined x = false ↔ x = jundef := by
  intro x
  cases x <;> simp [isDefined]

/-- If reading along `init` reaches a container, then writing along
`init ++ [last]` performs the final assignment on that container: the value
then read at `init` is the assigned container. -/
theorem setProp_getNested : ∀ (init : List String) (cur : JValue) (last : String) (v c : JValue),
    getNestedValue cur init = c → isContainer c = true →
    getNestedValue (setProp cur (init ++ [last]) v) init = finalAssign c last v
  | [], cur, last, v, c, h, _ => by
    have hcur : cur = c := h
    subst hcur
    simp [getNestedValue, setProp]
  | p :: init', cur, last, v, c, h, hc => by
    rw [getNestedValue_cons] at h
    have hne : init' ++ [last] ≠ [] := by simp
    cases cur with
    | jundef =>
      rw [show navStep jundef p = jundef from rfl, getNestedValue_undef] at h
      subst h; simp [isContainer] at hc
    | jnull =>
      rw [show navStep jnull p = jundef from rfl, getNestedValue_undef] at h
      subst h; simp [isContainer] at hc
    | jbool b =>
      rw [show navStep (jbool b) p = jundef from rfl, getNestedValue_undef] at h
      subst h; simp [isContainer] at hc
    | jnum n =>
      rw [show navStep (jnum n) p = jundef from rfl, getNestedValue_undef] at h
      subst h; simp [isContainer] at hc
    | jstr s =>
      rw [show navStep (jstr s) p = jundef from rfl, getNestedValue_undef] at h
      subst h; simp [isContainer] at hc
    | jarr xs =>
      rw [show navStep (jarr xs) p = (match segIndex p with | some i => xs.getD i jundef | none => jundef) from rfl] at h
      cases hseg : segIndex p with
      | none =>
        rw [hseg] at h; simp only at h
        rw [getNestedValue_undef] at h; subst h; simp [isContainer] at hc
      | some i =>
        rw [hseg] at h; simp only at h
        by_cases hi : i < xs.length
        · rw [List.getD_eq_getElem xs jundef hi] at h
          show getNestedValue (setProp (jarr xs) (p :: (init' ++ [last])) v) (p :: init') = _
          rw [show setProp (jarr xs) (p :: (init' ++ [last])) v
              = jarr (xs.set i (setProp xs[i] (init' ++ [last]) v)) from by
            simp [setProp, hne, hseg, hi]]
          rw [getNestedValue_cons]
          rw [show navStep (jarr (xs.set i (setProp xs[i] (init' ++ [last]) v))) p
              = (xs.set i (setProp xs[i] (init' ++ [last]) v)).getD i jundef from by
            simp [navStep, hseg]]
          rw [List.getD_eq_getElem _ jundef (by simpa using hi), List.getElem_set_self]
          exact setProp_getNested init' (xs.get ⟨i, hi⟩) last v c h hc
        · rw [List.getD_eq_default xs jundef (Nat.le_of_not_lt hi)] at h
          rw [getNestedValue_undef] at h; subst h; simp [isContainer] at hc
    | jobj fs =>
      rw [show navStep (jobj fs) p = lookupField fs p from rfl] at h
      by_cases hd : isDefined (lookupField fs p) = true
      · show getNestedValue (setProp (jobj fs) (p :: (init' ++ [last])) v) (p :: init') = _
        rw [show setProp (jobj fs) (p :: (init' ++ [last])) v
            = jobj (setField fs p (setProp (lookupField fs p) (init' ++ [last]) v)) from by
          simp [setProp, hne, hd]]
        rw [getNestedValue_cons]
        rw [show navStep (jobj (setField fs p (setProp (lookupField fs p) (init' ++ [last]) v))) p
            = lookupField (setField fs p (setProp (lookupField fs p) (init' ++ [last]) v)) p from rfl]
        rw [lookupField_setField]
        exact setProp_getNested init' (lookupField fs p) last v c h hc
      · have hu : lookupField fs p = jundef :=
          (isDefined_eq_false (lookupField fs p)).mp (Bool.eq_false_iff.mpr hd)
        rw [hu, getNestedValue_undef] at h; subst h; simp [isContainer] at hc

/-- If reading along `init` reaches a container on which the final
assignment is a no-op, the whole write is a no-op on the document. -/
theorem setProp_unchanged : ∀ (init : List String) (cur : JValue) (last : String) (v c : JValue),
    getNestedValue cur init = c → isContainer c = true → finalAssign c last v = c →
    setProp cur (init ++ [last]) v = cur
  | [], cur, last, v, c, h, _, hfa => by
    have hcur : cur = c := h
    subst hcur
    simpa [setProp] using hfa
  | p :: init', cur, last, v, c, h, hc, hfa => by
    rw [getNestedValue_cons] at h
    have hne : init' ++ [last] ≠ [] := by simp
    cases cur with
    | jundef =>
      rw [show navStep jundef p = jundef from rfl, getNestedValue_undef] at h
      subst h; simp [isContainer] at hc
    | jnull =>
      rw [show navStep jnull p = jundef from rfl, getNestedValue_undef] at h
      subst h; simp [isContainer] at hc
    | jbool b =>
      rw [show navStep (jbool b) p = jundef from rfl, getNestedValue_undef] at h
      subst h; simp [isContainer] at hc
    | jnum n =>
      rw [show navStep (jnum n) p = jundef from rfl, getNestedValue_undef] at h
      subst h; simp [isContainer] at hc
    | jstr s =>
      rw [show navStep (jstr s) p = jundef from rfl, getNestedValue_undef] at h
      subst h; simp [isContainer] at hc
    | jarr xs =>
      rw [show navStep (jarr xs) p = (match segIndex p with | some i => xs.getD i jundef | none => jundef) from rfl] at h
      cases hseg : segIndex p with
      | none =>
        rw [hseg] at h; simp only at h
        rw [getNestedValue_undef] at h; subst h; simp [isContainer] at hc
      | some i =>
        rw [hseg] at h; simp only at h
        by_cases hi : i < xs.length
        · rw [List.getD_eq_getElem xs jundef hi] at h
          show setProp (jarr xs) (p :: (init' ++ [last])) v = jarr xs
          rw [show setProp (jarr xs) (p :: (init' ++ [last])) v
              = jarr (xs.set i (setProp xs[i] (init' ++ [last]) v)) from by
            simp [setProp, hne, hseg, hi]]
          rw [setProp_unchanged init' xs[i] last v c h hc hfa]
          rw [listSet_self xs i hi]
        · rw [List.getD_eq_default xs jundef (Nat.le_of_not_lt hi)] at h
          rw [getNestedValue_undef] at h; subst h; simp [isContainer] at hc
    | jobj fs =>
      rw [show navStep (jobj fs) p = lookupField fs p from rfl] at h
      by_cases hd : isDefined (lookupField fs p) = true
      · show setProp (jobj fs) (p :: (init' ++ [last])) v = jobj fs
        rw [show setProp (jobj fs) (p :: (init' ++ [last])) v
            = jobj (setField fs p (setProp (lookupField fs p) (init' ++ [last]) v)) from by
          simp [setProp, hne, hd]]
        rw [setProp_unchanged init' (lookupField fs p) last v c h hc hfa]
        rw [setField_self fs p (lookupField fs p) rfl (by
          intro hu
          rw [hu] at hd
          simp [isDefined] at hd)]
      · have hu : lookupField fs p = jundef :=
          (isDefined_eq_false (lookupField fs p)).mp (Bool.eq_false_iff.mpr hd)
        rw [hu, getNestedValue_undef] at h; subst h; simp [isContainer] at hc

/-- For a non-`remove` fix on a JSON document, `applyFix` is the pure write. -/
theorem applyFix_eq_setProp (D : JValue) (F : ConfigFix)
    (hop : F.suggestion.operation ≠ Operation.remove) (h : isJsonValue D = true) :
    applyFix D F = setProp D (splitPath F.suggestion.path) F.suggestion.value := by
  unfold applyFix
  rw [jsonClone_self D h]
  cases hc : F.suggestion.operation with
  | remove => exact absurd hc hop
  | add => rfl
  | replace => rfl
  | set => rfl

/-- C4: for an `add`/`replace`/`set` suggestion whose resolved parent is a
sequence and whose final segment is the numeric literal `i`: in range the
element at `i` is overwritten, at exactly the length the value is appended,
beyond the length the whole apply is a silent no-op; for a map parent the
key is set unconditionally (overwrite or create). -/
theorem setProperty_sequence_and_map_semantics (D : JValue) (F : ConfigFix)
    (init : List String) (last : String)
    (hop : F.suggestion.operation ≠ Operation.remove)
    (hsplit : splitPath F.suggestion.path = init ++ [last])
    (hdoc : isJsonValue D = true) :
    (∀ (i : Nat) (xs : List JValue), segIndex last = some i → getNestedValue D init = jarr xs →
      ((i < xs.length → getNestedValue (applyFix D F) init = jarr (xs.set i F.suggestion.value)) ∧
       (i = xs.length → getNestedValue (applyFix D F) init = jarr (xs ++ [F.suggestion.value])) ∧
       (xs.length < i → applyFix D F = D))) ∧
    (∀ (fs : List (String × JValue)), getNestedValue D init = jobj fs →
      getNestedValue (applyFix D F) init = jobj (setField fs last F.suggestion.value)) := by
  have happ := applyFix_eq_setProp D F hop hdoc
  rw [happ, hsplit]
  constructor
  · intro i xs hseg hD4
    refine ⟨?_, ?_, ?_⟩
    · intro hi
      rw [setProp_getNested init D last F.suggestion.value (jarr xs) hD4 rfl]
      simp [finalAssign, hseg, hi]
    · intro hi
      rw [setProp_getNested init D last F.suggestion.value (jarr xs) hD4 rfl]
      simp [finalAssign, hseg, hi]
    · intro hi
      exact setProp_unchanged init D last F.suggestion.value (jarr xs) hD4 rfl (by
        simp [finalAssign, hseg, Nat.lt_asymm hi, Nat.ne_of_gt hi])
  · intro fs hD4
    rw [setProp_getNested init D last F.suggestion.value (jobj fs) hD4 rfl]
    rfl

/-- Witness for C4: the spec's own append example, `{xs:[1,2]}` with a
`set` at `/xs/2` of 3. -/
theorem setProperty_sequence_and_map_semantics_witness :
    getNestedValue (applyFix doc4 fixSet4) ["xs"] = jarr [jnum 1, jnum 2, jnum 3] :=
  ((setProperty_sequence_and_map_semantics doc4 fixSet4 ["xs"] "2"
      (fun hh => Operation.noConfusion hh) rfl rfl).1 2 [jnum 1, jnum 2] rfl rfl).2.1 rfl

/-- A successful plain read agrees with the optional-chained read. -/
theorem getField_ok_safeField (e : JValue) (k : String) (v : JValue)
    (h : getField e k = .ok v) : safeField e k = v := by
  cases e with
  | jundef => simp [getField] at h
  | jnull => simp [getField] at h
  | jobj fs => simp [getField] at h; simpa [safeField] using h
  | jbool b => simp [getField] at h; simp [safeField, h]
  | jnum n => simp [getField] at h; simp [safeField, h]
  | jstr s => simp [getField] at h; simp [safeField, h]
  | jarr xs => simp [getField] at h; simp [safeField, h]

/-- A record one field of which was read without throwing is non-null, so
every other read of it succeeds too. -/
theorem getField_ok_total (e : JValue) (k k2 : String) (v : JValue)
    (h : getField e k = .ok v) : ∃ w, getField e k2 = .ok w := by
  cases e with
  | jundef => simp [getField] at h
  | jnull => simp [getField] at h
  | jobj fs => exact ⟨lookupField fs k2, rfl⟩
  | jbool b => exact ⟨jundef, rfl⟩
  | jnum n => exact ⟨jundef, rfl⟩
  | jstr s => exact ⟨jundef, rfl⟩
  | jarr xs => exact ⟨jundef, rfl⟩

/-- A produced fix records its source error and its (string) resolved path. -/
theorem gffe_fix_shape (s : String) (e config path : JValue) (fix : ConfigFix)
    (h : generateFixForError s e config path = .ok (some fix)) :
    fix.error = e ∧ path = jstr fix.path := by
  unfold generateFixForError at h
  split at h
  · exact absurd h (by simp)
  · split at h
    · dsimp only at h
      split at h
      · exact absurd h (by simp)
      · exact absurd h (by simp)
      · simp only [Except.ok.injEq, Option.some.injEq] at h
        subst h
        exact ⟨rfl, rfl⟩
    · exact absurd h (by simp)

/-- The dedup key recoverable from a produced fix is the key the loop
computed for its error. -/
theorem gffe_fixKey (s : String) (e config path kw : JValue) (fix : ConfigFix)
    (hk : getField e "keyword" = .ok kw)
    (h : generateFixForError s e config path = .ok (some fix)) :
    fixKey fix = jsToString kw ++ ":" ++ jsToString path := by
  obtain ⟨he, hp⟩ := gffe_fix_shape s e config path fix h
  unfold fixKey
  rw [he, getField_ok_safeField e "keyword" kw hk, hp]
  simp [jsToString]

/-- The loop invariant behind the dedup guarantee: keys of accumulated
fixes are all recorded, and recorded keys are never produced again. -/
theorem generateFixesAux_pairwise (idf : Nat → String) (cfg : JValue) :
    ∀ (errs : List JValue) (i : Nat) (fixes : List ConfigFix) (processed : List String)
      (res : List ConfigFix),
      generateFixesAux idf cfg errs i fixes processed = .ok res →
      (∀ f ∈ fixes, memStr processed (fixKey f) = true) →
      fixes.Pairwise (fun a b => fixKey a ≠ fixKey b) →
      res.Pairwise (fun a b => fixKey a ≠ fixKey b)
  | [], i, fixes, processed, res, h, hmem, hpw => by
    simp [generateFixesAux] at h
    exact h ▸ hpw
  | e :: rest, i, fixes, processed, res, h, hmem, hpw => by
    simp only [generateFixesAux] at h
    cases hep : getErrorPath e with
    | error u => rw [hep] at h; exact absurd h (by simp)
    | ok path =>
      rw [hep] at h
      cases hk : getField e "keyword" with
      | error u => rw [hk] at h; exact absurd h (by simp)
      | ok kw =>
        rw [hk] at h
        dsimp only at h
        by_cases hmm2 : memStr processed (jsToString kw ++ ":" ++ jsToString path) = true
        · rw [if_pos hmm2] at h
          exact generateFixesAux_pairwise idf cfg rest (i + 1) fixes processed res h hmem hpw
        · rw [if_neg hmm2] at h
          cases hf : generateFixForError (idf i) e cfg path with
          | error u => rw [hf] at h; exact absurd h (by simp)
          | ok od =>
            rw [hf] at h
            cases od with
            | none =>
              dsimp only at h
              exact generateFixesAux_pairwise idf cfg rest (i + 1) fixes processed res h hmem hpw
            | some fix =>
              dsimp only at h
              have hkey : fixKey fix = jsToString kw ++ ":" ++ jsToString path :=
                gffe_fixKey (idf i) e cfg path kw fix hk hf
              refine generateFixesAux_pairwise idf cfg rest (i + 1) (fixes ++ [fix])
                ((jsToString kw ++ ":" ++ jsToString path) :: processed) res h ?_ ?_
              · intro f hfm
                rcases List.mem_append.mp hfm with hl | hr
                · have hmf := hmem f hl
                  simp [memStr, hmf]
                · simp at hr; subst hr
                  simp [memStr, hkey]
              · refine List.pairwise_append.mpr ⟨hpw, List.pairwise_singleton _ _, ?_⟩
                intro a ha b hb
                simp at hb; subst hb
                rw [hkey]
                intro hcontra
                have hma := hmem a ha
                rw [hcontra] at hma
                exact hmm2 hma

/-- C2: the fix list returned by one `generateFixes` call never contains
two fixes sharing the dedup key (keyword, resolved path); in the concrete
duplicate run the earlier occurrence wins. -/
theorem generateFixes_no_duplicate_dedup_keys :
    (∀ (idf : Nat → String) (errs : List JValue) (cfg : JValue) (res : List ConfigFix),
      generateFixes idf errs cfg = .ok res →
      res.Pairwise (fun a b => fixKey a ≠ fixKey b)) ∧
    generateFixes noIds [errMin2a, errMin2b, errReq2c] doc2 = .ok [fixMin2a, fixReq2c] := by
  constructor
  · intro idf errs cfg res h
    exact generateFixesAux_pairwise idf cfg errs 0 [] [] res h
      (by intro f hf; cases hf) List.Pairwise.nil
  · rfl

/-- Witness for C2: the two fixes of the concrete duplicate run carry
distinct dedup keys. -/
theorem generateFixes_no_duplicate_dedup_keys_witness :
    List.Pairwise (fun a b => fixKey a ≠ fixKey b) [fixMin2a, fixReq2c] :=
  generateFixes_no_duplicate_dedup_keys.1 noIds [errMin2a, errMin2b, errReq2c] doc2
    [fixMin2a, fixReq2c] rfl

/-- C10: a dedup key is recorded only when a fix is actually produced:
processing an error that yields no fix leaves both accumulators untouched,
so a later error with the same key can still produce a fix — as the
concrete run shows, where the first `maximum` error is within its limit and
the second, sharing its key, still yields the sole fix. -/
theorem dedup_key_recorded_only_on_fix :
    (∀ (idf : Nat → String) (cfg e : JValue) (rest : List JValue) (i : Nat)
       (fixes : List ConfigFix) (processed : List String) (p kw : JValue),
      getErrorPath e = .ok p → getField e "keyword" = .ok kw →
      memStr processed (jsToString kw ++ ":" ++ jsToString p) = false →
      generateFixForError (idf i) e cfg p = .ok none →
      generateFixesAux idf cfg (e :: rest) i fixes processed
        = generateFixesAux idf cfg rest (i + 1) fixes processed) ∧
    generateFixes noIds [errMax10a, errMax10b] doc10 = .ok [fixMax10b] := by
  constructor
  · intro idf cfg e rest i fixes processed p kw hep hk hm hf
    simp [generateFixesAux, hep, hk, hm, hf]
  · rfl

/-- Witness for C10: the skipped first error leaves the loop state alone. -/
theorem dedup_key_recorded_only_on_fix_witness :
    generateFixesAux noIds doc10 [errMax10a, errMax10b] 0 [] []
      = generateFixesAux noIds doc10 [errMax10b] 1 [] [] :=
  dedup_key_recorded_only_on_fix.1 noIds doc10 errMax10a [errMax10b] 0 [] []
    (jstr "/x") (jstr "maximum") rfl rfl rfl rfl

/-- C3 counterexample: an `enum` error whose `params.allowedValues` is not
a sequence throws inside `generateFixForError` (`.join` on a non-array),
aborting the whole call — no fix is returned for the following well-formed
`required` record, which alone does produce one. -/
theorem malformed_enum_aborts_batch_counterexample :
    generateFixes noIds [errEnum3, errReq3] (jobj []) = .error () ∧
    generateFixes noIds [errReq3] (jobj []) = .ok [fixReq3] :=
  ⟨rfl, rfl⟩

/-- C3 amended: malformed records do not in general degrade to "no fix for
that record": a keyword handler that dereferences a missing or ill-typed
`params` field throws, and the exception aborts the entire batch, losing
the fixes of every remaining well-formed record (shown here for `enum` with
a non-sequence or absent `allowedValues`). -/
theorem malformed_params_throw_amended :
    (∀ (suffix : String) (e cfg path params v : JValue),
      getField e "keyword" = .ok (jstr "enum") →
      getField e "params" = .ok params →
      getField params "allowedValues" = .ok v →
      isSeq v = false →
      generateFixForError suffix e cfg path = .error ()) ∧
    generateFixes noIds [errEnum3b, errReq3] (jobj []) = .error () := by
  constructor
  · intro suffix e cfg path params v hk hp hv hs
    unfold generateFixForError
    rw [hk]
    cases path with
    | jstr pathStr =>
      dsimp only
      have hsw : fixSwitch e (jstr "enum") pathStr (splitPath pathStr)
          (navigate cfg (splitPath pathStr)) = .error () := by
        simp only [fixSwitch]
        norm_num only
        simp only [fixEnumCase, hp, hv]
        cases v with
        | jarr xs => simp [isSeq] at hs
        | jundef => rfl
        | jnull => rfl
        | jbool b => rfl
        | jnum n => rfl
        | jstr s => rfl
        | jobj fs => rfl
      rw [hsw]
    | jundef => rfl
    | jnull => rfl
    | jbool b => rfl
    | jnum n => rfl
    | jarr xs => rfl
    | jobj fs => rfl
  · rfl

/-- Witness for C3's amended theorem: the `enum` record with `params` but
no `allowedValues` throws. -/
theorem malformed_params_throw_amended_witness :
    generateFixForError "" errEnum3b (jobj []) (jstr "/p") = .error () :=
  malformed_params_throw_amended.1 "" errEnum3b (jobj []) (jstr "/p") (jobj []) jundef
    rfl rfl rfl rfl

/-- C5: an error with keyword `type` and a readable `params.type` always
yields a fix: a `replace` at the error's path whose value is the coercion
of the current value when defined, else the type-based default — the `type`
keyword is never unfixable. -/
theorem type_keyword_always_produces_fix (suffix : String) (e cfg params t : JValue)
    (pathStr : String)
    (hk : getField e "keyword" = .ok (jstr "type"))
    (hp : getField e "params" = .ok params)
    (ht : getField params "type" = .ok t) :
    (generateFixForError suffix e cfg (jstr pathStr)).map (Option.map (fun f =>
        (f.suggestion.operation, f.suggestion.path, f.suggestion.value, f.suggestion.oldValue)))
      = .ok (some (Operation.replace, pathStr,
          (match convertType (navigate cfg (splitPath pathStr)) t with
           | jundef => getDefaultValue e ((splitPath pathStr).getLast?.getD "")
           | cv => cv),
          navigate cfg (splitPath pathStr))) := by
  cases hcv : convertType (navigate cfg (splitPath pathStr)) t with
  | jundef => simp [generateFixForError, fixSwitch, fixType, hk, hp, ht, hcv, Except.map, Option.map]
  | jnull => simp [generateFixForError, fixSwitch, fixType, hk, hp, ht, hcv, Except.map, Option.map]
  | jbool b => simp [generateFixForError, fixSwitch, fixType, hk, hp, ht, hcv, Except.map, Option.map]
  | jnum n => simp [generateFixForError, fixSwitch, fixType, hk, hp, ht, hcv, Except.map, Option.map]
  | jstr s => simp [generateFixForError, fixSwitch, fixType, hk, hp, ht, hcv, Except.map, Option.map]
  | jarr xs => simp [generateFixForError, fixSwitch, fixType, hk, hp, ht, hcv, Except.map, Option.map]
  | jobj fs => simp [generateFixForError, fixSwitch, fixType, hk, hp, ht, hcv, Except.map, Option.map]

/-- Witness for C5: a `type` error expecting `number` over the string
"42" produces the coerced `replace`. -/
theorem type_keyword_always_produces_fix_witness :
    (generateFixForError "" errType5 doc5 (jstr "/n")).map (Option.map (fun f =>
        (f.suggestion.operation, f.suggestion.path, f.suggestion.value, f.suggestion.oldValue)))
      = .ok (some (Operation.replace, "/n", jnum 42, jstr "42")) :=
  type_keyword_always_produces_fix "" errType5 doc5 (jobj [("type", jstr "number")])
    (jstr "number") "/n" rfl rfl rfl

/-- C8 counterexample: a `minItems` error carrying no `params` object
reaches `error.params.limit` in the description template and throws,
aborting the call — contradicting "no exception raised". -/
theorem minItems_without_params_throws :
    generateFixes noIds [errMinItems8] (jobj []) = .error () := rfl

/-- C8 amended: `minItems`, `minLength` and `enum` errors contribute no fix
provided the fields their handlers read are present (`params.limit`
readable for the first two, `params.allowedValues` a sequence for `enum`);
errors with any unrecognised keyword contribute no fix unconditionally. In
all these cases no exception is raised. -/
theorem unfixable_keywords_amended :
    (∀ (suffix : String) (e cfg params l : JValue) (pathStr : String),
      (getField e "keyword" = .ok (jstr "minItems") ∨ getField e "keyword" = .ok (jstr "minLength")) →
      getField e "params" = .ok params →
      getField params "limit" = .ok l →
      generateFixForError suffix e cfg (jstr pathStr) = .ok none) ∧
    (∀ (suffix : String) (e cfg params : JValue) (vs : List JValue) (pathStr : String),
      getField e "keyword" = .ok (jstr "enum") →
      getField e "params" = .ok params →
      getField params "allowedValues" = .ok (jarr vs) →
      generateFixForError suffix e cfg (jstr pathStr) = .ok none) ∧
    (∀ (suffix : String) (e cfg : JValue) (k : String) (pathStr : String),
      getField e "keyword" = .ok (jstr k) →
      k ≠ "required" → k ≠ "type" → k ≠ "additionalProperties" → k ≠ "minItems" →
      k ≠ "maxItems" → k ≠ "minLength" → k ≠ "maxLength" → k ≠ "minimum" →
      k ≠ "maximum" → k ≠ "enum" →
      generateFixForError suffix e cfg (jstr pathStr) = .ok none) := by
  refine ⟨?_, ?_, ?_⟩
  · intro suffix e cfg params l pathStr hk hp hl
    rcases hk with hk | hk <;>
      simp [generateFixForError, fixSwitch, fixMinItemsCase, fixMinLengthCase, hk, hp, hl]
  · intro suffix e cfg params vs pathStr hk hp hv
    simp [generateFixForError, fixSwitch, fixEnumCase, hk, hp, hv]
  · intro suffix e cfg k pathStr hk h1 h2 h3 h4 h5 h6 h7 h8 h9 h10
    obtain ⟨w, hw⟩ := getField_ok_total e "keyword" "message" (jstr k) hk
    simp [generateFixForError, fixSwitch, fixOtherCase, hk, hw,
      h1, h2, h3, h4, h5, h6, h7, h8, h9, h10]

/-- Witness for C8's amended theorem: a well-formed `minItems` error
contributes no fix without throwing. -/
theorem unfixable_keywords_amended_witness :
    generateFixForError "" errMinItems8b (jobj []) (jstr "/q") = .ok none :=
  unfixable_keywords_amended.1 "" errMinItems8b (jobj []) (jobj [("limit", jnum 2)])
    (jnum 2) "/q" (Or.inl rfl) rfl rfl
